import Mathlib

/-!
Shallow embedding of the Billy Bass voice-assistant core
(`core/session.py`, `core/audio.py`, `core/mic.py`, `core/button.py`)
together with proofs about its session orchestration, playback pipeline,
microphone handling and error paths.

Embedding conventions:
* Python strings are embedded as lists of characters (`Str`);
* PCM audio chunks (`bytes` payloads) are abstracted to identifiers;
* wall-clock times (floats measured in seconds) are embedded as rationals;
* the `asyncio` event loop is single-threaded, so each inbound-message
  handler of `BillySession` runs to completion before the next one and is
  embedded as a pure state transformer on `SessionState`;
* the playback worker thread is the only consumer of the playback queue
  and never enqueues, so producer/consumer concurrency is embedded as an
  arbitrary interleaving of atomic steps (`PlayOp`).
-/

namespace Billy

/-- Python `str`, embedded as a list of characters. -/
abbrev Str := List Char

/-- One PCM audio chunk (a `bytes` payload), abstracted to an identifier. -/
abbrev Chunk := Nat

/-- An item of `audio.playback_queue`: a PCM chunk, or the `None` sentinel
that tells the worker thread to stop.  (The `("song", ...)` tuple items
used only by song playback are outside the session flows modelled here.) -/
inductive Item where
  | chunk (c : Chunk)
  | sentinel
deriving DecidableEq

/-- Python `"needle" in haystack` (substring containment). -/
def isSubstr (n : Str) : Str → Bool
  | [] => decide (n = [])
  | c :: t => n.isPrefixOf (c :: t) || isSubstr n t

/-- Python `str.lower()`. -/
def toLowerStr (s : Str) : Str := s.map Char.toLower

/-- Python `str.strip()`: whitespace removed from both ends. -/
def pyStrip (s : Str) : Str :=
  ((s.dropWhile Char.isWhitespace).reverse.dropWhile Char.isWhitespace).reverse

/-- Module-level mutable state of `core/audio.py` touched by the session:
the playback queue, the write log of the output stream (`stream.write`
calls made by `playback_worker`, in order), the `playback_done_event`,
and whether the worker thread has exited. -/
structure AudioState where
  queue : List Item := []
  written : List Chunk := []
  doneEvent : Bool := false
  workerStopped : Bool := false
deriving DecidableEq

/-- The drain loop `while not playback_queue.empty(): get_nowait(); task_done()`
used by both `audio.stop_playback` and `BillySession._on_audio_out`. -/
def drain : List Item → List Item
  | [] => []
  | _ :: t => drain t

/-- `audio.stop_playback`: drains the queue without playing and sets
`playback_done_event`. -/
def stop_playback (a : AudioState) : AudioState :=
  { a with queue := drain a.queue, doneEvent := true }

/-- One atomic step of the playback pipeline: a producer enqueue
(`playback_queue.put`), a flush (`audio.stop_playback`), or one
iteration of the worker thread of `audio.playback_worker`. -/
inductive PlayOp where
  | enqueue (c : Chunk)
  | flush
  | worker
deriving DecidableEq

/-- Small-step semantics of the playback pipeline.  The worker iteration
mirrors `audio.playback_worker`: it dequeues the head item; the `None`
sentinel makes it break out of its loop (the `finally:` block then sets
`playback_done_event`), a chunk is written to the output stream.  A
stopped worker consumes nothing. -/
def play_step (a : AudioState) : PlayOp → AudioState
  | .enqueue c => { a with queue := a.queue ++ [.chunk c] }
  | .flush => stop_playback a
  | .worker =>
    if a.workerStopped then a
    else
      match a.queue with
      | [] => a
      | .sentinel :: t => { a with queue := t, workerStopped := true, doneEvent := true }
      | .chunk c :: t => { a with queue := t, written := a.written ++ [c] }

/-- Run a sequence of pipeline steps. -/
def play_run (a : AudioState) (ops : List PlayOp) : AudioState :=
  ops.foldl play_step a

/-- The chunks enqueued by a sequence of pipeline steps, in order. -/
def enqueued_chunks : List PlayOp → List Chunk
  | [] => []
  | .enqueue c :: t => c :: enqueued_chunks t
  | _ :: t => enqueued_chunks t

/-- The chunk payloads of a queue segment. -/
def chunkItems : List Item → List Chunk
  | [] => []
  | .chunk c :: t => c :: chunkItems t
  | .sentinel :: t => chunkItems t

/-- The `autofollowup` constructor argument of `BillySession`:
`"auto" | "never" | "always"`. -/
inductive AutoFollowUp where
  | auto
  | never
  | always
deriving DecidableEq

/-- The two transcript streams of a turn (`self._active_transcript_stream`
values `"audio"` and `"text"`). -/
inductive TStream where
  | audio
  | text
deriving DecidableEq

/-- State of a `BillySession` instance (plus the `core/audio.py` module
state it shares with the playback worker).  Wall-clock bookkeeping
(`last_activity`, `last_rms`) is factored out into the standalone
watchdog model below, and the always-`True`-guarded logging attributes
(`_logged_mic_blocked_1`, ...) are omitted as pure logging. -/
structure SessionState where
  audioSt : AudioState := {}
  wsOpen : Bool := false
  sessionActive : Bool := false
  interruptSet : Bool := false
  allowMicInput : Bool := true
  micRunning : Bool := false
  committed : Bool := false
  firstText : Bool := true
  userSpokeAfterAssistant : Bool := false
  fullResponseText : Str := []
  audioBuffer : List Chunk := []
  sawTranscriptDelta : Bool := false
  turnHadSpeech : Bool := false
  followUpExpected : Bool := false
  followUpPrompt : Option Str := none
  activeTranscriptStream : Option TStream := none
  addedDoneText : Bool := false
  sawFollowUpCall : Bool := false
  toolArgsBuffer : List (Str × Str) := []
  dispatched : List (Str × Str) := []
  micDataStarted : Bool := false
  autofollowup : AutoFollowUp := .auto
  runModeDory : Bool := false
deriving DecidableEq

/-- Environment facts outside the session state: which sound files exist
on disk, and whether the delayed mic-reopen procedure
(`_start_mic_after_playback`) eventually succeeds. -/
structure Env where
  soundExists : Str → Bool
  micReopenOk : Bool

/-- `BillySession._on_response_created` (handler of `response.created`). -/
def on_response_created (s : SessionState) : SessionState :=
  { s with sawTranscriptDelta := false
           turnHadSpeech := false
           followUpExpected := false
           followUpPrompt := none
           activeTranscriptStream := none
           addedDoneText := false
           sawFollowUpCall := false }

/-- Stream selection of `BillySession._on_transcript_delta`: event types
starting with `response.output_audio_transcript` or
`response.audio_transcript` belong to the audio-transcript stream, the
rest (`response.text.delta`) to the plain-text stream. -/
def streamOf (t : Str) : TStream :=
  if "response.output_audio_transcript".data.isPrefixOf t
      || "response.audio_transcript".data.isPrefixOf t
  then .audio else .text

/-- The body of `_on_transcript_delta` after the stream filter: record
speech, disallow mic input, handle the first-text bookkeeping, and append
the delta to `self.full_response_text`. -/
def transcript_delta_body (s : SessionState) (stream : TStream) (delta : Str) :
    SessionState :=
  { s with activeTranscriptStream := some stream
           turnHadSpeech := true
           sawTranscriptDelta := true
           allowMicInput := false
           firstText := false
           userSpokeAfterAssistant :=
             if s.firstText then false else s.userSpokeAfterAssistant
           fullResponseText := s.fullResponseText ++ delta }

/-- `BillySession._on_transcript_delta`: the first delta of a turn selects
the active stream; a delta of the other stream returns immediately. -/
def on_transcript_delta (s : SessionState) (t : Str) (delta : Str) : SessionState :=
  let stream := streamOf t
  match s.activeTranscriptStream with
  | none => transcript_delta_body s stream delta
  | some a => if stream ≠ a then s else transcript_delta_body s stream delta

/-- Fold `_on_transcript_delta` over a list of (event type, delta) pairs. -/
def apply_deltas (s : SessionState) (ds : List (Str × Str)) : SessionState :=
  ds.foldl (fun s td => on_transcript_delta s td.1 td.2) s

/-- Concatenation of the deltas belonging to stream `st`, in order. -/
def concatStream (st : TStream) : List (Str × Str) → Str
  | [] => []
  | (t, d) :: rest => (if streamOf t = st then d else []) ++ concatStream st rest

/-- The text contributed by a turn's delta sequence: the concatenation of
the deltas that share the stream of the first delta. -/
def selectedDeltas : List (Str × Str) → Str
  | [] => []
  | (t0, d0) :: rest => concatStream (streamOf t0) ((t0, d0) :: rest)

/-- Step (1) of the interrupt path of `BillySession._on_audio_out`: the
`while not playback_queue.empty(): get_nowait(); task_done()` drain. -/
def interrupt_flush (s : SessionState) : SessionState :=
  { s with audioSt := { s.audioSt with queue := drain s.audioSt.queue } }

/-- Step (2) of the interrupt path: `self.session_active.clear()`. -/
def clear_active (s : SessionState) : SessionState :=
  { s with sessionActive := false }

/-- Step (3) of the interrupt path: `self.interrupt_event.clear()`. -/
def clear_interrupt (s : SessionState) : SessionState :=
  { s with interruptSet := false }

/-- `BillySession._on_audio_out` (handler of audio-delta events, with
`TEXT_ONLY_MODE = False` and a non-empty audio payload): record speech,
extend `self.audio_buffer`, enqueue the chunk on the playback queue, and
if the interrupt event is set, drain the queue, clear the active flag and
clear the interrupt event — in that order. -/
def on_audio_out (s : SessionState) (c : Chunk) : SessionState :=
  let s1 : SessionState :=
    { s with turnHadSpeech := true
             audioBuffer := s.audioBuffer ++ [c]
             audioSt := { s.audioSt with queue := s.audioSt.queue ++ [.chunk c] } }
  if s1.interruptSet then clear_interrupt (clear_active (interrupt_flush s1))
  else s1

/-- `BillySession._on_transcript_done`: append the final transcript when
no delta of this turn was seen, then a blank line. -/
def on_transcript_done (s : SessionState) (transcript : Str) : SessionState :=
  let s :=
    if !transcript.isEmpty && !s.sawTranscriptDelta && !s.addedDoneText then
      { s with fullResponseText := s.fullResponseText ++ transcript
               addedDoneText := true }
    else s
  { s with fullResponseText := s.fullResponseText ++ "\n\n".data }

/-- `dict.setdefault(name, "")` followed by `buffer[name] += args` on an
insertion-ordered dictionary. -/
def bufAppend : List (Str × Str) → Str → Str → List (Str × Str)
  | [], k, v => [(k, v)]
  | (k₂, v₂) :: rest, k, v =>
    if k₂ = k then (k₂, v₂ ++ v) :: rest else (k₂, v₂) :: bufAppend rest k v

/-- `dict.pop(name, "{}")`: the popped value (or the default) and the
remaining dictionary. -/
def bufPop : List (Str × Str) → Str → Str × List (Str × Str)
  | [], _ => ("\x7b\x7d".data, [])
  | (k₂, v₂) :: rest, k =>
    if k₂ = k then (v₂, rest)
    else
      let r := bufPop rest k
      (r.1, (k₂, v₂) :: r.2)

/-- Dictionary lookup on an insertion-ordered association list. -/
def bufFind : List (Str × Str) → Str → Option Str
  | [], _ => none
  | (k₂, v₂) :: rest, k => if k₂ = k then some v₂ else bufFind rest k

/-- `BillySession._on_tool_args_delta` (handler of
`response.function_call_arguments.delta`): append the streamed argument
text to `self._tool_args_buffer[name]`.  The handler reads only the
`name` and `arguments` fields of the event; the call id is not read. -/
def on_tool_args_delta (s : SessionState) (_callId : Str) (name : Str)
    (args : Str) : SessionState :=
  if name.isEmpty then s
  else { s with toolArgsBuffer := bufAppend s.toolArgsBuffer name args }

/-- `BillySession._on_tool_args_done` (handler of
`response.function_call_arguments.done`): take the event's own
`arguments` if non-empty, otherwise pop the buffered text for `name`;
then dispatch to the named tool handler.  The handler bodies (JSON
parsing and protocol sends) act on external collaborators and are
recorded here as the `dispatched` log. -/
def on_tool_args_done (s : SessionState) (_callId : Str) (name : Str)
    (args : Str) : SessionState :=
  let rawAndBuf :=
    if args.isEmpty then bufPop s.toolArgsBuffer name
    else (args, s.toolArgsBuffer)
  { s with toolArgsBuffer := rawAndBuf.2
           dispatched := s.dispatched ++ [(name, rawAndBuf.1)] }

/-- `BillySession._stop_mic`. -/
def stop_mic (s : SessionState) : SessionState :=
  if s.micRunning then { s with micRunning := false } else s

/-- Closing the websocket under `self.ws_lock` (`self.ws = None`). -/
def close_ws (s : SessionState) : SessionState :=
  { s with wsOpen := false }

/-- `BillySession.stop_session`: clear the active flag, stop the mic,
close the websocket (time-bounded). -/
def stop_session (s : SessionState) : SessionState :=
  close_ws (stop_mic { s with sessionActive := false })

/-- `playback_queue.join()` as seen by `_on_response_done`: the worker
thread runs until the queue is consumed.  (A join against a dead worker
would block; no verified flow reaches that case.) -/
def joinDrain (a : AudioState) : AudioState :=
  (List.range a.queue.length).foldl (fun st _ => play_step st .worker) a

/-- `BillySession._on_response_done` (with `TEXT_ONLY_MODE = False`, no
kickoff message pending): wait for playback to drain, save and clear the
turn's audio buffer, set `playback_done_event`, re-allow mic input; in
`dory` run-mode stop the session. -/
def on_response_done (s : SessionState) : SessionState :=
  let a := joinDrain s.audioSt
  let s := { s with audioSt := { a with doneEvent := true }
                    audioBuffer := []
                    allowMicInput := true }
  if s.runModeDory then stop_session s else s

/-- Side effects of `BillySession._play_error_sound`, in order. -/
inductive ErrAction where
  | stopMotors
  | playClip (path : Str)
  | skipPlayback (path : Str)
  | stopSession
deriving DecidableEq

/-- `os.path.join("sounds", code + ".wav")`. -/
def soundPath (code : Str) : Str := "sounds/".data ++ code ++ ".wav".data

/-- `BillySession._play_error_sound`: stop the motors, then play
`sounds/<code>.wav` to completion if the file exists (otherwise log and
skip playback), then `stop_session`. -/
def play_error_sound (env : Env) (code : Str) (s : SessionState) :
    SessionState × List ErrAction :=
  let path := soundPath code
  if env.soundExists path then
    (stop_session s, [.stopMotors, .playClip path, .stopSession])
  else
    (stop_session s, [.stopMotors, .skipPlayback path, .stopSession])

/-- Whether an error path produced audible feedback. -/
def playsClip (tr : List ErrAction) : Bool :=
  tr.any fun a => match a with | .playClip _ => true | _ => false

/-- Error classification of the `error` inbound message in
`BillySession.handle_message`: lower-case the code, map codes containing
`invalid_api_key` to `noapikey`, everything else to `error`. -/
def classify_api_error (code : Str) : Str :=
  if isSubstr "invalid_api_key".data (toLowerStr code) then "noapikey".data
  else "error".data

/-- The connection-establishment failures caught by `BillySession.start`. -/
inductive ConnectError where
  | connectionClosed (reason : Str)
  | dnsFailure
  | otherFailure
deriving DecidableEq

/-- Error classification of the `except` arms of `BillySession.start`:
a closed connection whose reason mentions `invalid_api_key` maps to
`noapikey`, `socket.gaierror` to `nowifi`, anything else to `error`. -/
def classify_connect_error : ConnectError → Str
  | .connectionClosed r =>
    if isSubstr "invalid_api_key".data r then "noapikey".data else "error".data
  | .dnsFailure => "nowifi".data
  | .otherFailure => "error".data

/-- The failure path of `BillySession.start`: classify the connection
failure and play the keyed error sound before tearing down. -/
def session_start_failure (env : Env) (e : ConnectError) (s : SessionState) :
    SessionState × List ErrAction :=
  play_error_sound env (classify_connect_error e) s

/-- The question punctuation recognised by
`BillySession._wants_follow_up_heuristic`: Latin `?`, Spanish `¿`,
CJK full-width, Arabic, interrobang. -/
def questionChars : List Char := ['?', '¿', '？', '؟', '‽']

/-- `BillySession._wants_follow_up_heuristic`: any question punctuation
in the stripped accumulated transcript. -/
def wants_follow_up_heuristic (txt : Str) : Bool :=
  let t := pyStrip txt
  questionChars.any fun ch => t.contains ch

/-- The follow-up decision of `BillySession.post_response_handling`:
`always` forces it, `never` forbids it, `auto` takes the tool-declared
intent or the punctuation heuristic. -/
def wants_follow_up (mode : AutoFollowUp) (toolExpects : Bool)
    (askedQuestion : Bool) : Bool :=
  match mode with
  | .always => true
  | .never => false
  | .auto => toolExpects || askedQuestion

/-- `BillySession.post_response_handling`: an inactive session closes the
websocket; otherwise the follow-up decision either keeps the session open
and reopens the mic (via `_start_mic_after_playback`, which succeeds iff
the environment allows) or closes the websocket. -/
def post_response_handling (env : Env) (s : SessionState) : SessionState :=
  if !s.sessionActive then close_ws s
  else
    let asked := wants_follow_up_heuristic s.fullResponseText
    if wants_follow_up s.autofollowup s.followUpExpected asked then
      { s with micRunning := env.micReopenOk
               userSpokeAfterAssistant := false
               fullResponseText := [] }
    else close_ws s

/-- The inbound protocol messages dispatched by
`BillySession.handle_message`, with their relevant payload fields. -/
inductive Msg where
  | responseCreated
  | speechStarted
  | speechStopped
  | transcriptDone (transcript : Str)
  | audioDelta (c : Chunk)
  | inputCommitted
  | transcriptDelta (t : Str) (delta : Str)
  | toolArgsDelta (callId name args : Str)
  | toolArgsDone (callId name args : Str)
  | responseDone
  | errorMsg (code : Str)
  | unknown

/-- `BillySession.handle_message`: dispatch one inbound message to its
handler; unrecognised messages are ignored silently. -/
def handle_message (env : Env) (s : SessionState) : Msg → SessionState
  | .responseCreated => on_response_created s
  | .speechStarted => { s with committed := false }
  | .speechStopped => s
  | .transcriptDone tr => on_transcript_done s tr
  | .audioDelta c => on_audio_out s c
  | .inputCommitted => { s with committed := true }
  | .transcriptDelta t d => on_transcript_delta s t d
  | .toolArgsDelta cid n a => on_tool_args_delta s cid n a
  | .toolArgsDone cid n a => on_tool_args_done s cid n a
  | .responseDone => on_response_done s
  | .errorMsg code => (play_error_sound env (classify_api_error code) s).1
  | .unknown => s

/-- The `finally:` block of `BillySession.run_stream`: stop the mic, then
`post_response_handling`. -/
def run_stream_finally (env : Env) (s : SessionState) : SessionState :=
  post_response_handling env (stop_mic s)

/-- The `async for message in self.ws` loop of `BillySession.run_stream`:
before handling each message the loop checks the active flag and breaks
if it is clear; when the loop ends (by break or by the websocket
closing), the `finally:` block runs. -/
def run_stream_loop (env : Env) (s : SessionState) : List Msg → SessionState
  | [] => run_stream_finally env s
  | m :: rest =>
    if s.sessionActive then run_stream_loop env (handle_message env s m) rest
    else run_stream_finally env s

/-- A microphone frame as seen by `BillySession.mic_callback`: an
identifier plus whether its RMS loudness exceeds `SILENCE_THRESHOLD`. -/
structure Frame where
  id : Nat
  loud : Bool
deriving DecidableEq

/-- `BillySession.mic_callback` (with `TEXT_ONLY_MODE = False`): drop the
frame when mic input is disallowed or the session is inactive; drop it
while the wake-up sound is still playing; otherwise record activity and
forward the samples to `audio.send_mic_audio` (the returned frame). -/
def mic_callback (s : SessionState) (f : Frame) : SessionState × Option Frame :=
  if !s.allowMicInput || !s.sessionActive then (s, none)
  else if !s.audioSt.doneEvent then (s, none)
  else
    let s := { s with micDataStarted := true }
    let s := if f.loud then { s with userSpokeAfterAssistant := true } else s
    (s, some f)

/-- `timeout_offset = 2` in `BillySession.mic_timeout_checker`. -/
def MIC_TIMEOUT_OFFSET : ℚ := 2

/-- The `await asyncio.sleep(0.5)` poll interval of
`BillySession.mic_timeout_checker`. -/
def MIC_CHECK_INTERVAL : ℚ := 1/2

/-- Idle time as computed by `mic_timeout_checker`:
`now - max(self.last_activity[0], audio.last_played_time)`. -/
def idle_seconds (now lastActivity lastPlayed : ℚ) : ℚ :=
  now - max lastActivity lastPlayed

/-- The firing condition inside one `mic_timeout_checker` poll: the
display/end block is entered when `idle_seconds - timeout_offset > 0.5`,
and inside it the session is ended when
`elapsed > MIC_TIMEOUT_SECONDS` with `elapsed = idle_seconds - timeout_offset`. -/
def mic_timeout_fires (now lastActivity lastPlayed timeout : ℚ) : Bool :=
  let elapsed := idle_seconds now lastActivity lastPlayed - MIC_TIMEOUT_OFFSET
  decide (elapsed > 1/2) && decide (elapsed > timeout)

/-- One poll of `mic_timeout_checker`: the loop runs only while
`session_active` is set, skips the check entirely while the mic is not
running, and otherwise applies the firing condition. -/
def mic_timeout_checker_step (sessionActive micRunning : Bool)
    (now lastActivity lastPlayed timeout : ℚ) : Bool :=
  sessionActive && micRunning &&
    mic_timeout_fires now lastActivity lastPlayed timeout

/-- The backoff delays of `BillySession._retry_mic_loop`:
`delays = [0.5, 1.0, 2.0, 2.0, 2.0]`. -/
def RETRY_DELAYS : List ℚ := [1/2, 1, 2, 2, 2]

/-- Observable state of the mic retry loop: the session-active flag (the
loop reads it but never writes it), `self.mic_running`, the number of
`MicManager()` recreations, the number of `mic.start` attempts, and the
sleeps performed, in order. -/
structure RetryState where
  sessionActive : Bool := true
  micRunning : Bool := false
  micRecreated : Nat := 0
  attempts : Nat := 0
  slept : List ℚ := []
deriving DecidableEq

/-- The `for delay in delays:` loop of `BillySession._retry_mic_loop`,
with `outcome n` telling whether the `n`-th `mic.start` attempt (counted
from 0) succeeds: check the active flag, sleep, recreate the
`MicManager`, attempt to start; return on success, continue on failure. -/
def retry_mic_go (outcome : Nat → Bool) : List ℚ → RetryState → RetryState
  | [], st => st
  | d :: rest, st =>
    if !st.sessionActive then st
    else
      let st :=
        { st with slept := st.slept ++ [d], micRecreated := st.micRecreated + 1 }
      if outcome st.attempts then
        { st with attempts := st.attempts + 1, micRunning := true }
      else
        retry_mic_go outcome rest
          { st with attempts := st.attempts + 1, micRunning := false }

/-- `BillySession._retry_mic_loop`. -/
def retry_mic_loop (outcome : Nat → Bool) (st : RetryState) : RetryState :=
  retry_mic_go outcome RETRY_DELAYS st

/-- A running interactive session (as set up by `BillySession.start`). -/
def activeState : SessionState :=
  { sessionActive := true, wsOpen := true, micRunning := true }

/-- A running session in the middle of an assistant turn: the playback
queue holds pending chunks, some text and tool arguments have
accumulated, and the interrupt button has just been pressed. -/
def speakingState : SessionState :=
  { activeState with
    interruptSet := true
    allowMicInput := false
    fullResponseText := "Hi".data
    toolArgsBuffer := [("follow_up_intent".data, "x".data)]
    audioSt := { queue := [.chunk 1, .chunk 2] } }

/-- A session that disallows mic input (assistant speech streaming in). -/
def blockedState : SessionState :=
  { activeState with allowMicInput := false }

/-- An environment with every sound clip present and a working mic. -/
def allClipEnv : Env := ⟨fun _ => true, true⟩

/-- An environment where no fallback sound clip exists on disk. -/
def noClipEnv : Env := ⟨fun _ => false, true⟩

/-- A pipeline state before a flush: chunk 0 already written, chunk 1
still pending in the queue. -/
def preFlushAudio : AudioState := { queue := [.chunk 1], written := [0] }

/-- A turn's transcript deltas: two audio-transcript deltas with a
plain-text delta interleaved. -/
def sampleDeltas : List (Str × Str) :=
  [("response.audio_transcript.delta".data, "Hi".data),
   ("response.text.delta".data, "XX".data),
   ("response.output_audio_transcript.delta".data, "!".data)]

/-! ### Helper lemmas -/

theorem drain_eq_nil (q : List Item) : drain q = [] := by
  induction q with
  | nil => rfl
  | cons _ t ih => simpa [drain] using ih

theorem chunkItems_append (l₁ l₂ : List Item) :
    chunkItems (l₁ ++ l₂) = chunkItems l₁ ++ chunkItems l₂ := by
  induction l₁ with
  | nil => rfl
  | cons i t ih => cases i <;> simp [chunkItems, ih]

theorem play_run_written_mem (ops : List PlayOp) (a : AudioState) (c : Chunk)
    (h : c ∈ (play_run a ops).written) :
    c ∈ a.written ∨ c ∈ chunkItems a.queue ∨ c ∈ enqueued_chunks ops := by
  induction ops generalizing a with
  | nil => simpa [play_run] using Or.inl h
  | cons op rest ih =>
    rw [play_run, List.foldl_cons] at h
    rcases ih (play_step a op) (by simpa [play_run] using h) with h₂ | h₂ | h₂
    · cases op with
      | enqueue c₂ => exact Or.inl (by simpa [play_step] using h₂)
      | flush => exact Or.inl (by simpa [play_step, stop_playback] using h₂)
      | worker =>
        by_cases hs : a.workerStopped
        · exact Or.inl (by simpa [play_step, hs] using h₂)
        · match hq : a.queue with
          | [] => exact Or.inl (by simpa [play_step, hs, hq] using h₂)
          | .sentinel :: t => exact Or.inl (by simpa [play_step, hs, hq] using h₂)
          | .chunk c₃ :: t =>
            rw [play_step, if_neg hs, hq] at h₂
            simp only [List.mem_append, List.mem_singleton] at h₂
            rcases h₂ with h₂ | h₂
            · exact Or.inl h₂
            · exact Or.inr (Or.inl (by simp [hq, chunkItems, h₂]))
    · cases op with
      | enqueue c₂ =>
        rw [play_step] at h₂
        simp only at h₂
        rcases (by
          simpa [chunkItems_append] using h₂ :
            c ∈ chunkItems a.queue ∨ c ∈ chunkItems [Item.chunk c₂]) with h₃ | h₃
        · exact Or.inr (Or.inl h₃)
        · exact Or.inr (Or.inr (by
            simp only [chunkItems, List.mem_singleton] at h₃
            simp [enqueued_chunks, h₃]))
      | flush =>
        rw [play_step, stop_playback] at h₂
        simp [drain_eq_nil, chunkItems] at h₂
      | worker =>
        by_cases hs : a.workerStopped
        · exact Or.inr (Or.inl (by simpa [play_step, hs] using h₂))
        · match hq : a.queue with
          | [] => exact Or.inr (Or.inl (by simpa [play_step, hs, hq] using h₂))
          | .sentinel :: t =>
            rw [play_step, if_neg hs, hq] at h₂
            exact Or.inr (Or.inl (by simp only at h₂; simp [hq, chunkItems, h₂]))
          | .chunk c₃ :: t =>
            rw [play_step, if_neg hs, hq] at h₂
            simp only at h₂
            exact Or.inr (Or.inl (by simp [hq, chunkItems]; exact Or.inr h₂))
    · cases op with
      | enqueue c₂ =>
        exact Or.inr (Or.inr (by
          rw [enqueued_chunks]
          exact List.mem_cons_of_mem _ h₂))
      | flush => exact Or.inr (Or.inr (by simpa [enqueued_chunks] using h₂))
      | worker => exact Or.inr (Or.inr (by simpa [enqueued_chunks] using h₂))

theorem run_stream_loop_inactive (env : Env) (s : SessionState) (ms : List Msg)
    (h : s.sessionActive = false) :
    run_stream_loop env s ms = run_stream_finally env s := by
  cases ms <;> simp [run_stream_loop, h]

theorem stop_mic_fields (s : SessionState) :
    (stop_mic s).micRunning = false ∧
    (stop_mic s).sessionActive = s.sessionActive ∧
    (stop_mic s).wsOpen = s.wsOpen ∧
    (stop_mic s).audioSt = s.audioSt ∧
    (stop_mic s).interruptSet = s.interruptSet := by
  by_cases h : s.micRunning <;> simp [stop_mic, h]

theorem apply_deltas_cons (s : SessionState) (td : Str × Str)
    (rest : List (Str × Str)) :
    apply_deltas s (td :: rest) = apply_deltas (on_transcript_delta s td.1 td.2) rest :=
  rfl

theorem apply_deltas_some (ds : List (Str × Str)) (s : SessionState) (st : TStream)
    (h : s.activeTranscriptStream = some st) :
    (apply_deltas s ds).fullResponseText = s.fullResponseText ++ concatStream st ds ∧
    (apply_deltas s ds).activeTranscriptStream = some st := by
  induction ds generalizing s with
  | nil => exact ⟨by simp [apply_deltas, concatStream], h⟩
  | cons td rest ih =>
    obtain ⟨t, d⟩ := td
    rw [apply_deltas_cons]
    by_cases hst : streamOf t = st
    · have hbody :
          on_transcript_delta s t d = transcript_delta_body s st d := by
        rw [on_transcript_delta, h]
        simp [hst]
      rw [hbody]
      have ih₂ := ih (transcript_delta_body s st d) rfl
      refine ⟨?_, ih₂.2⟩
      rw [ih₂.1]
      show (s.fullResponseText ++ d) ++ concatStream st rest = _
      rw [concatStream, if_pos hst, List.append_assoc]
    · have hskip : on_transcript_delta s t d = s := by
        rw [on_transcript_delta, h]
        simp [hst]
      rw [hskip]
      have ih₂ := ih s h
      refine ⟨?_, ih₂.2⟩
      rw [ih₂.1, concatStream, if_neg hst, List.nil_append]

theorem bufFind_bufAppend (buf : List (Str × Str)) (k v : Str) :
    bufFind (bufAppend buf k v) k = some ((bufFind buf k).getD [] ++ v) := by
  induction buf with
  | nil => simp [bufAppend, bufFind]
  | cons kv rest ih =>
    obtain ⟨k₂, v₂⟩ := kv
    by_cases hk : k₂ = k
    · simp [bufAppend, bufFind, hk]
    · simp [bufAppend, bufFind, hk, ih]

theorem bufPop_bufAppend_of_none (buf : List (Str × Str)) (k v : Str)
    (h : bufFind buf k = none) :
    bufPop (bufAppend buf k v) k = (v, buf) := by
  induction buf with
  | nil => simp [bufAppend, bufPop]
  | cons kv rest ih =>
    obtain ⟨k₂, v₂⟩ := kv
    by_cases hk : k₂ = k
    · simp [bufFind, hk] at h
    · rw [bufFind, if_neg hk] at h
      simp [bufAppend, bufPop, hk, ih h]

/-! ### Claims -/

/-- Claim C1: when the interrupt signal is observed while assistant audio
is streaming (in `_on_audio_out`), the orchestrator drains the playback
queue, clears the session active flag and clears the interrupt signal, in
that order; the network loop then observes the inactive flag — on its
next message, or when the stream ends — and exits, the mic is stopped and
the websocket is closed.  This holds for every subsequent message trace,
so an interrupt racing with newly arriving audio chunks still leaves the
queue empty and the session inactive. -/
theorem interrupt_during_speaking (env : Env) (s : SessionState) (c : Chunk)
    (ms : List Msg) (h : s.interruptSet = true) :
    ((on_audio_out s c).audioSt.queue = [] ∧
      (on_audio_out s c).sessionActive = false ∧
      (on_audio_out s c).interruptSet = false) ∧
    ((run_stream_loop env (on_audio_out s c) ms).audioSt.queue = [] ∧
      (run_stream_loop env (on_audio_out s c) ms).sessionActive = false ∧
      (run_stream_loop env (on_audio_out s c) ms).micRunning = false ∧
      (run_stream_loop env (on_audio_out s c) ms).wsOpen = false) := by
  have hout : on_audio_out s c =
      clear_interrupt (clear_active (interrupt_flush
        { s with turnHadSpeech := true
                 audioBuffer := s.audioBuffer ++ [c]
                 audioSt :=
                   { s.audioSt with queue := s.audioSt.queue ++ [.chunk c] } })) := by
    rw [on_audio_out]
    simp [h]
  have hfields :
      (on_audio_out s c).audioSt.queue = [] ∧
      (on_audio_out s c).sessionActive = false ∧
      (on_audio_out s c).interruptSet = false ∧
      (on_audio_out s c).micRunning = s.micRunning ∧
      (on_audio_out s c).wsOpen = s.wsOpen := by
    rw [hout]
    simp [clear_interrupt, clear_active, interrupt_flush, drain_eq_nil]
  refine ⟨⟨hfields.1, hfields.2.1, hfields.2.2.1⟩, ?_⟩
  rw [run_stream_loop_inactive env _ ms hfields.2.1]
  rw [run_stream_finally, post_response_handling]
  rw [(stop_mic_fields (on_audio_out s c)).2.1, hfields.2.1]
  simp only [Bool.not_false, if_pos]
  refine ⟨?_, ?_, ?_, ?_⟩
  · rw [close_ws]
    simp [(stop_mic_fields (on_audio_out s c)).2.2.2.1, hfields.1]
  · rw [close_ws]
    simp [(stop_mic_fields (on_audio_out s c)).2.1, hfields.2.1]
  · rw [close_ws]
    simp [(stop_mic_fields (on_audio_out s c)).1]
  · rw [close_ws]

/-- Witness for claim C1 at a concrete interrupted mid-turn state. -/
theorem interrupt_during_speaking_witness :
    ((on_audio_out speakingState 7).audioSt.queue = [] ∧
      (on_audio_out speakingState 7).sessionActive = false ∧
      (on_audio_out speakingState 7).interruptSet = false) ∧
    ((run_stream_loop allClipEnv (on_audio_out speakingState 7)
        [.audioDelta 9]).audioSt.queue = [] ∧
      (run_stream_loop allClipEnv (on_audio_out speakingState 7)
        [.audioDelta 9]).sessionActive = false ∧
      (run_stream_loop allClipEnv (on_audio_out speakingState 7)
        [.audioDelta 9]).micRunning = false ∧
      (run_stream_loop allClipEnv (on_audio_out speakingState 7)
        [.audioDelta 9]).wsOpen = false) :=
  interrupt_during_speaking allClipEnv speakingState 7 [.audioDelta 9] rfl

/-- Claim C2: after `stop_playback` the playback queue is empty, and every
chunk the worker writes from then on was either already written before
the flush (an in-progress write) or was enqueued after the flush — no
chunk still pending at flush time is ever written. -/
theorem flush_then_enqueue_only_new (a : AudioState) (ops : List PlayOp) (c : Chunk)
    (h : c ∈ (play_run (stop_playback a) ops).written) :
    (stop_playback a).queue = [] ∧
    (c ∈ a.written ∨ c ∈ enqueued_chunks ops) := by
  have hq : (stop_playback a).queue = [] := by simp [stop_playback, drain_eq_nil]
  refine ⟨hq, ?_⟩
  rcases play_run_written_mem ops (stop_playback a) c h with h₂ | h₂ | h₂
  · exact Or.inl (by simpa [stop_playback] using h₂)
  · rw [hq] at h₂
    simp [chunkItems] at h₂
  · exact Or.inr h₂

/-- Witness for claim C2: after flushing a queue that still held chunk 1,
the freshly enqueued chunk 2 is written and is accounted for by the
post-flush enqueues. -/
theorem flush_then_enqueue_only_new_witness :
    2 ∈ (play_run (stop_playback preFlushAudio) [.enqueue 2, .worker]).written ∧
    (2 ∈ preFlushAudio.written ∨ 2 ∈ enqueued_chunks [.enqueue 2, .worker]) :=
  ⟨by decide,
   (flush_then_enqueue_only_new preFlushAudio [.enqueue 2, .worker] 2 (by decide)).2⟩

/-- Claim C3: at end-of-turn processing with the session still active, a
follow-up (websocket kept open, mic reopened via the delayed procedure)
is chosen iff the policy is `always`, or the policy is `auto` and either
the tool-declared intent or the question-punctuation heuristic holds;
with policy `never` the websocket is always closed, regardless of the
transcript or the tool-declared intent. -/
theorem follow_up_policy (env : Env) (s : SessionState)
    (hactive : s.sessionActive = true) (hws : s.wsOpen = true) :
    ((post_response_handling env s).wsOpen = true ↔
      (s.autofollowup = .always ∨
        (s.autofollowup = .auto ∧
          (s.followUpExpected = true ∨
            wants_follow_up_heuristic s.fullResponseText = true)))) ∧
    (s.autofollowup = .never → (post_response_handling env s).wsOpen = false) ∧
    (wants_follow_up s.autofollowup s.followUpExpected
        (wants_follow_up_heuristic s.fullResponseText) = true →
      (post_response_handling env s).micRunning = env.micReopenOk) := by
  rw [post_response_handling, hactive]
  cases hA : s.autofollowup <;>
    cases hF : s.followUpExpected <;>
    cases hH : wants_follow_up_heuristic s.fullResponseText <;>
    simp [wants_follow_up, close_ws, hws]

/-- Witness for claim C3 at a concrete active session with policy `auto`
and a tool-declared follow-up intent. -/
theorem follow_up_policy_witness :
    (post_response_handling allClipEnv
      { activeState with followUpExpected := true }).wsOpen = true :=
  (follow_up_policy allClipEnv { activeState with followUpExpected := true }
      rfl rfl).1.mpr (Or.inr ⟨rfl, Or.inl rfl⟩)

/-- Claim C4 counterexample: `_on_response_created` leaves the
accumulated transcript buffer (`full_response_text`) and the tool-call
argument buffers (`_tool_args_buffer`) untouched, so at a state carrying
text and a buffered tool call they are not cleared by the
response-started handler. -/
theorem response_created_clears_cex :
    (on_response_created speakingState).fullResponseText ≠ [] ∧
    (on_response_created speakingState).toolArgsBuffer ≠ [] := by
  decide

/-- Claim C4 (amended): on receipt of a response-started event the
turn-scoped flags are reset — transcript-delta-seen, turn-had-speech,
the follow-up intent (expects flag and suggested prompt), the active
transcript stream, the done-text marker and the follow-up-call marker —
while the accumulated transcript buffer and the tool-call argument
buffers are left unchanged (they are cleared elsewhere). -/
theorem response_created_resets (s : SessionState) :
    (on_response_created s).sawTranscriptDelta = false ∧
    (on_response_created s).turnHadSpeech = false ∧
    (on_response_created s).followUpExpected = false ∧
    (on_response_created s).followUpPrompt = none ∧
    (on_response_created s).activeTranscriptStream = none ∧
    (on_response_created s).addedDoneText = false ∧
    (on_response_created s).sawFollowUpCall = false ∧
    (on_response_created s).fullResponseText = s.fullResponseText ∧
    (on_response_created s).toolArgsBuffer = s.toolArgsBuffer := by
  simp [on_response_created]

/-- Claim C5 counterexample: the pending tool-argument buffer is keyed by
tool name, not call id — two argument deltas carrying distinct call ids
but the same tool name are concatenated into a single entry — and a
`done` event that carries its own (non-empty) argument payload does not
remove the pending entry. -/
theorem tool_args_call_id_cex :
    (on_tool_args_delta
        (on_tool_args_delta activeState ("call_A".data) ("f".data) ("x".data))
        ("call_B".data) ("f".data) ("y".data)).toolArgsBuffer =
      [("f".data, "xy".data)] ∧
    (on_tool_args_done
        (on_tool_args_delta
          (on_tool_args_delta activeState ("call_A".data) ("f".data) ("x".data))
          ("call_B".data) ("f".data) ("y".data))
        ("call_B".data) ("f".data) ("true".data)).toolArgsBuffer =
      [("f".data, "xy".data)] := by
  decide

/-- Claim C5 (amended): argument deltas are buffered under the tool name
— the call id field is ignored by the delta handler — with their text
concatenated in arrival order; the buffered text is dispatched only when
the `done` event for that tool is processed, and the pending entry is
removed exactly when the `done` event carries no argument payload of its
own (otherwise the event's payload is dispatched and the buffered entry
remains). -/
theorem tool_args_buffering (s : SessionState) (cid₁ cid₂ cid₃ : Str)
    (name a₁ a₂ d : Str) (hname : name ≠ []) (hd : d ≠ []) :
    (on_tool_args_delta s cid₁ name a₁ = on_tool_args_delta s cid₂ name a₁) ∧
    (bufFind (on_tool_args_delta (on_tool_args_delta s cid₁ name a₁)
        cid₂ name a₂).toolArgsBuffer name =
      some ((bufFind s.toolArgsBuffer name).getD [] ++ a₁ ++ a₂)) ∧
    (on_tool_args_done s cid₃ name [] =
      { s with toolArgsBuffer := (bufPop s.toolArgsBuffer name).2
               dispatched := s.dispatched ++ [(name, (bufPop s.toolArgsBuffer name).1)] }) ∧
    (on_tool_args_done s cid₃ name d =
      { s with dispatched := s.dispatched ++ [(name, d)] }) ∧
    (bufFind s.toolArgsBuffer name = none →
      bufPop (bufAppend s.toolArgsBuffer name a₁) name = (a₁, s.toolArgsBuffer)) := by
  have hne : name.isEmpty = false := by
    cases name with
    | nil => exact absurd rfl hname
    | cons c t => rfl
  have hde : d.isEmpty = false := by
    cases d with
    | nil => exact absurd rfl hd
    | cons c t => rfl
  refine ⟨rfl, ?_, ?_, ?_, fun h => bufPop_bufAppend_of_none _ _ _ h⟩
  · rw [on_tool_args_delta, on_tool_args_delta, hne]
    simp only [Bool.false_eq_true, if_false]
    rw [bufFind_bufAppend, bufFind_bufAppend]
    simp [List.append_assoc]
  · rw [on_tool_args_done]
    simp
  · rw [on_tool_args_done, hde]
    simp

/-- Witness for claim C5 (amended) at concrete call ids, tool name and
argument fragments. -/
theorem tool_args_buffering_witness :
    bufFind (on_tool_args_delta
        (on_tool_args_delta activeState ("call_A".data) ("f".data) ("x".data))
        ("call_B".data) ("f".data) ("y".data)).toolArgsBuffer ("f".data) =
      some ("xy".data) ∧
    on_tool_args_done activeState ("call_B".data) ("f".data) ("true".data) =
      { activeState with dispatched := [("f".data, "true".data)] } := by
  have h := tool_args_buffering activeState ("call_A".data) ("call_B".data)
    ("call_B".data) ("f".data) ("x".data) ("y".data) ("true".data)
    (by decide) (by decide)
  exact ⟨h.2.1.trans (by decide), h.2.2.2.1.trans (by decide)⟩

/-- Claim C6: within a turn the first transcript delta selects the active
stream and every delta of the other stream is discarded — the
accumulated transcript grows exactly by the deltas sharing the first
delta's stream — and the selection is reset to none at the start of each
new turn by `_on_response_created`. -/
theorem transcript_stream_per_turn (s : SessionState) (ds : List (Str × Str))
    (h : s.activeTranscriptStream = none) :
    ((apply_deltas s ds).fullResponseText = s.fullResponseText ++ selectedDeltas ds) ∧
    (∀ s₂ : SessionState, (on_response_created s₂).activeTranscriptStream = none) := by
  refine ⟨?_, fun s₂ => rfl⟩
  cases ds with
  | nil => simp [apply_deltas, selectedDeltas]
  | cons td rest =>
    obtain ⟨t, d⟩ := td
    rw [apply_deltas_cons]
    have hfirst :
        on_transcript_delta s t d = transcript_delta_body s (streamOf t) d := by
      rw [on_transcript_delta, h]
    rw [hfirst]
    have h₂ := apply_deltas_some rest (transcript_delta_body s (streamOf t) d)
      (streamOf t) rfl
    rw [h₂.1]
    show (s.fullResponseText ++ d) ++ concatStream (streamOf t) rest = _
    rw [selectedDeltas, concatStream, if_pos rfl, List.append_assoc]

/-- Witness for claim C6: a plain-text delta interleaved between two
audio-transcript deltas contributes nothing to the transcript. -/
theorem transcript_stream_per_turn_witness :
    (apply_deltas activeState sampleDeltas).fullResponseText = "Hi!".data := by
  have h := (transcript_stream_per_turn activeState sampleDeltas rfl).1
  exact h.trans (by decide)

/-- Claim C7: a microphone frame delivered while mic input is disallowed
or the session is inactive is dropped by `mic_callback`: nothing is
forwarded to the outgoing-audio path and the session state — in
particular, no queue — is left untouched. -/
theorem mic_frames_dropped (s : SessionState) (f : Frame)
    (h : s.allowMicInput = false ∨ s.sessionActive = false) :
    mic_callback s f = (s, none) := by
  rcases h with h | h <;> simp [mic_callback, h]

/-- Witness for claim C7 at a state with mic input disallowed. -/
theorem mic_frames_dropped_witness :
    mic_callback blockedState ⟨0, true⟩ = (blockedState, none) :=
  mic_frames_dropped blockedState ⟨0, true⟩ (Or.inl rfl)

/-- Claim C8 counterexample: with the default threshold of 5 seconds and
an idle time of 4 seconds the watchdog does not end the session, although
4 seconds exceeds the threshold minus the 2-second offset — the code
subtracts the offset from the idle time (equivalently, it fires only once
the idle time exceeds the threshold plus the offset), it does not
subtract it from the threshold. -/
theorem mic_timeout_threshold_cex :
    mic_timeout_checker_step true true 4 0 0 5 = false ∧
    idle_seconds 4 0 0 > 5 - MIC_TIMEOUT_OFFSET := by
  constructor
  · norm_num [mic_timeout_checker_step, mic_timeout_fires, idle_seconds,
      MIC_TIMEOUT_OFFSET]
  · norm_num [idle_seconds, MIC_TIMEOUT_OFFSET]

/-- Claim C8 (amended): the watchdog acts only while the session is
active and the mic is running, computes the idle time as the current time
minus the later of (last mic activity, last audio played), polls at a
fixed sub-second interval (0.5 s), and — for any threshold of at least
half a second — ends the session exactly when the idle time minus the
2-second offset exceeds the threshold (i.e. when the idle time exceeds
the threshold plus the offset, not minus). -/
theorem mic_timeout_exact (act mic : Bool) (now la lp timeout : ℚ)
    (ht : 1/2 ≤ timeout) :
    (mic_timeout_checker_step act mic now la lp timeout = true ↔
      (act = true ∧ mic = true ∧
        idle_seconds now la lp - MIC_TIMEOUT_OFFSET > timeout)) ∧
    MIC_CHECK_INTERVAL < 1 := by
  refine ⟨?_, by norm_num [MIC_CHECK_INTERVAL]⟩
  rw [mic_timeout_checker_step, mic_timeout_fires]
  simp only [Bool.and_eq_true, decide_eq_true_eq]
  constructor
  · rintro ⟨⟨ha, hm⟩, _, hfire⟩
    exact ⟨ha, hm, hfire⟩
  · rintro ⟨ha, hm, hfire⟩
    exact ⟨⟨ha, hm⟩, lt_of_le_of_lt ht hfire, hfire⟩

/-- Witness for claim C8 (amended): with threshold 5 s and idle time 10 s
the watchdog fires. -/
theorem mic_timeout_exact_witness :
    mic_timeout_checker_step true true 10 0 0 5 = true :=
  (mic_timeout_exact true true 10 0 0 5 (by norm_num)).1.mpr
    ⟨rfl, rfl, by norm_num [idle_seconds, MIC_TIMEOUT_OFFSET]⟩

/-- Claim C9: `_retry_mic_loop` performs the bounded backoff sequence
0.5 s, 1 s, 2 s, 2 s, 2 s, recreating the `MicManager` before every
attempt; it returns immediately once an attempt succeeds (mic running,
no further sleeps or attempts), and after all five attempts fail it gives
up with the mic not running and the session still active. -/
theorem mic_retry_backoff (outcome : Nat → Bool) :
    (∀ k, k < 5 → (∀ j, j < k → outcome j = false) → outcome k = true →
      retry_mic_loop outcome {} =
        { sessionActive := true, micRunning := true, micRecreated := k + 1,
          attempts := k + 1, slept := RETRY_DELAYS.take (k + 1) }) ∧
    ((∀ j, j < 5 → outcome j = false) →
      retry_mic_loop outcome {} =
        { sessionActive := true, micRunning := false, micRecreated := 5,
          attempts := 5, slept := RETRY_DELAYS }) := by
  constructor
  · intro k hk hprev hsucc
    interval_cases k
    · simp [retry_mic_loop, RETRY_DELAYS, retry_mic_go, hsucc]
    · simp [retry_mic_loop, RETRY_DELAYS, retry_mic_go, hsucc,
        hprev 0 (by norm_num)]
    · simp [retry_mic_loop, RETRY_DELAYS, retry_mic_go, hsucc,
        hprev 0 (by norm_num), hprev 1 (by norm_num)]
    · simp [retry_mic_loop, RETRY_DELAYS, retry_mic_go, hsucc,
        hprev 0 (by norm_num), hprev 1 (by norm_num), hprev 2 (by norm_num)]
    · simp [retry_mic_loop, RETRY_DELAYS, retry_mic_go, hsucc,
        hprev 0 (by norm_num), hprev 1 (by norm_num), hprev 2 (by norm_num),
        hprev 3 (by norm_num)]
  · intro hall
    simp [retry_mic_loop, RETRY_DELAYS, retry_mic_go,
      hall 0 (by norm_num), hall 1 (by norm_num), hall 2 (by norm_num),
      hall 3 (by norm_num), hall 4 (by norm_num)]

/-- Witness for claim C9: the mic start fails twice and succeeds on the
third attempt — after it the mic is running, exactly three attempts were
made and the sleeps were 0.5 s, 1 s, 2 s. -/
theorem mic_retry_backoff_witness :
    (retry_mic_loop (fun n => n == 2) {}).micRunning = true ∧
    (retry_mic_loop (fun n => n == 2) {}).attempts = 3 ∧
    (retry_mic_loop (fun n => n == 2) {}).slept = [1/2, 1, 2] := by
  have h := (mic_retry_backoff fun n => n == 2).1 2 (by norm_num)
    (fun j hj => by interval_cases j <;> rfl) rfl
  rw [h]
  refine ⟨rfl, rfl, by norm_num [RETRY_DELAYS]⟩

/-- Claim C10 counterexample: when the keyed fallback clip is missing
from disk, `_play_error_sound` logs, skips audio playback entirely, and
still tears the session down — the failure path is silent, refuting
"never silent". -/
theorem error_path_silent_cex :
    playsClip (session_start_failure noClipEnv .dnsFailure activeState).2 = false ∧
    (session_start_failure noClipEnv .dnsFailure activeState).1.sessionActive
      = false := by
  decide

/-- Claim C10 (amended): every connection-establishment failure and every
upstream-reported error is classified (`nowifi` for network/DNS failure,
`noapikey` for rejected authentication, `error` otherwise) and — provided
the keyed clip file exists on disk — the classified fallback clip is
played to completion before the session is fully torn down (inactive,
mic stopped, websocket closed); if the clip file is missing, playback is
skipped with a warning and the teardown still happens. -/
theorem error_sound_keyed (env : Env) (e : ConnectError) (code : Str)
    (s s₂ : SessionState)
    (h₁ : env.soundExists (soundPath (classify_connect_error e)) = true)
    (h₂ : env.soundExists (soundPath (classify_api_error code)) = true) :
    (session_start_failure env e s).2 =
      [.stopMotors, .playClip (soundPath (classify_connect_error e)),
        .stopSession] ∧
    (session_start_failure env e s).1.sessionActive = false ∧
    (session_start_failure env e s).1.wsOpen = false ∧
    (session_start_failure env e s).1.micRunning = false ∧
    (play_error_sound env (classify_api_error code) s₂).2 =
      [.stopMotors, .playClip (soundPath (classify_api_error code)),
        .stopSession] ∧
    classify_connect_error .dnsFailure = "nowifi".data ∧
    classify_connect_error (.connectionClosed ("invalid_api_key".data)) =
      "noapikey".data ∧
    classify_connect_error .otherFailure = "error".data := by
  have hs : ∀ s₃ : SessionState,
      (stop_session s₃).sessionActive = false ∧
      (stop_session s₃).wsOpen = false ∧
      (stop_session s₃).micRunning = false := by
    intro s₃
    have h₃ := stop_mic_fields ({ s₃ with sessionActive := false })
    refine ⟨?_, rfl, ?_⟩
    · show (stop_mic { s₃ with sessionActive := false }).sessionActive = false
      rw [h₃.2.1]
    · show (stop_mic { s₃ with sessionActive := false }).micRunning = false
      exact h₃.1
  have hmain : session_start_failure env e s =
      (stop_session s,
        [.stopMotors, .playClip (soundPath (classify_connect_error e)),
          .stopSession]) := by
    rw [session_start_failure, play_error_sound, h₁]
    simp
  have hapi : play_error_sound env (classify_api_error code) s₂ =
      (stop_session s₂,
        [.stopMotors, .playClip (soundPath (classify_api_error code)),
          .stopSession]) := by
    rw [play_error_sound, h₂]
    simp
  rw [hmain, hapi]
  exact ⟨rfl, (hs s).1, (hs s).2.1, (hs s).2.2, rfl, by decide, by decide, by decide⟩

/-- Witness for claim C10 (amended): a DNS failure with the clip present
plays `sounds/nowifi.wav` and then stops the session. -/
theorem error_sound_keyed_witness :
    (session_start_failure allClipEnv .dnsFailure activeState).2 =
      [.stopMotors, .playClip ("sounds/nowifi.wav".data), .stopSession] ∧
    (session_start_failure allClipEnv .dnsFailure activeState).1.sessionActive
      = false := by
  have h := error_sound_keyed allClipEnv .dnsFailure ("x".data)
    activeState activeState rfl rfl
  exact ⟨h.1.trans (by decide), h.2.1⟩

end Billy
